import Mathlib

/-
Formal model of the ins_exract repository: four near-duplicate desktop OCR
batch-extraction applications.

Python strings are modelled as Lean `String` (a list of characters, matching
Python's sequence-of-code-points view); where a Python builtin operates on the
character sequence we work on `String.data : List Char` directly so that the
model stays kernel-computable and proof-friendly.  The OCR engine is an
external black box (spec section 1): it is modelled as an oracle
`String → Except String (List String)` mapping an image path either to the
list of recognized text fragments (the `r[1]` components of
`reader.readtext`) or to the message of the exception it raised.  GUI widget
updates, message boxes and the operating system "reveal in file manager" call
carry no algorithmic content and are not modelled; the observable outputs of a
run (result records, directories created, files written with their contents,
progress updates, which paths were passed to the OCR engine, final status) are
collected explicitly.  `os.path.join` is modelled with the "/" separator.
-/

-- ===================== Python string primitives =====================

/-- The ASCII whitespace characters recognized by Python's str.split() and
str.strip() (the model restricts Python's unicode whitespace to ASCII, which
covers every character these programs produce). -/
def isPyWs (c : Char) : Bool :=
  c == ' ' || c == '\t' || c == '\n' || c == '\r' || c == '\x0b' || c == '\x0c'

/-- Helper for `words`: scans the input accumulating the current word
(reversed); models Python str.split() with no arguments, which splits on runs
of whitespace and never yields empty words. -/
def wordsAux : List Char → List Char → List (List Char)
  | [], acc => if acc.isEmpty then [] else [acc.reverse]
  | c :: cs, acc =>
    if isPyWs c then
      if acc.isEmpty then wordsAux cs [] else acc.reverse :: wordsAux cs []
    else wordsAux cs (c :: acc)

/-- Python `s.split()` on the character list of `s`. -/
def words (l : List Char) : List (List Char) := wordsAux l []

/-- Python `" ".join(ws)` over character lists: single space between words. -/
def unwords : List (List Char) → List Char
  | [] => []
  | [w] => w
  | w :: ws => w ++ ' ' :: unwords ws

/-- Python `" ".join(text.split())`: collapse whitespace runs to single
spaces and drop leading/trailing whitespace. -/
def collapseWsL (l : List Char) : List Char := unwords (words l)

/-- Python `s.strip()` on the character list of `s`. -/
def pyStripL (l : List Char) : List Char :=
  ((l.dropWhile isPyWs).reverse.dropWhile isPyWs).reverse

/-- Python `sep.join(strings)` for a one-character separator, as a character
list. -/
def pyJoinSep (sep : Char) : List String → List Char
  | [] => []
  | [s] => s.data
  | s :: rest => s.data ++ sep :: pyJoinSep sep rest

/-- Python `s.lower()` (ASCII case folding suffices for the extension
filter). -/
def pyLower (s : String) : String := ⟨s.data.map Char.toLower⟩

/-- Python `s.endswith(suffixText)`. -/
def pyEndsWith (s suffixText : String) : Bool := suffixText.data.isSuffixOf s.data

/-- Python `s.startswith(p)`. -/
def pyStartsWith (s p : String) : Bool := p.data.isPrefixOf s.data

/-- Python `os.path.join(a, b)` for a relative second component. -/
def pathJoin (a b : String) : String := a ++ "/" ++ b

/-- Python `s.replace(" ", "_")` on a character list. -/
def spacesToUnderscores (l : List Char) : List Char :=
  l.map (fun c => if c == ' ' then '_' else c)

/-- Python `os.path.splitext(name)[0]`: the name without its extension; the
extension starts at the last dot, but dots leading the base name never start
an extension. -/
def splitextStem (name : String) : String :=
  let cs := name.data
  let lead := cs.takeWhile (fun c => c == '.')
  let rest := cs.dropWhile (fun c => c == '.')
  if rest.contains '.' then
    ⟨lead ++ ((rest.reverse.dropWhile (fun c => !(c == '.'))).drop 1).reverse⟩
  else ⟨cs⟩

-- ===================== Shared constants and filters =====================

/-- The sentinel the PyQt variant stores when normalization leaves no text
(LRD_QT_EXT.py line 56). -/
def noTextSentinel : String := "[No text found]"

/-- The saved-path sentinel when no folder is created (LRD_QT_EXT.py
line 108). -/
def noFolderSentinel : String := "[No folder created]"

/-- The marker tested by `extracted_text.startswith("Error")`
(LRD_QT_EXT.py line 97). -/
def errorMarkStr : String := "Error"

/-- Name of the shared output directory (LRD_QT_EXT.py line 76,
extra_excel.prompt.py line 61). -/
def extractedTextsDirName : String := "Extracted_Texts"

/-- Fixed name of each per-file text file (LRD_QT_EXT.py line 102). -/
def extractedTextFileName : String := "extracted_text.txt"

/-- Name of the aggregate spreadsheet (LRD_QT_EXT.py line 122,
extra_excel.prompt.py line 113). -/
def excelFileName : String := "extracted_texts.xlsx"

/-- Name of update.py's aggregate text file (update.py line 51). -/
def aggregateTxtName : String := "extracted_texts.txt"

/-- Name of extra_button.py's aggregate PDF (extra_button.py line 118). -/
def pdfFileName : String := "extracted_texts.pdf"

/-- Fallback folder name when sanitization leaves nothing (LRD_QT_EXT.py
line 98). -/
def fallbackFolderName : String := "Extracted"

/-- The separator line `'-'*40` of update.py line 65. -/
def dashes40 : String := ⟨List.replicate 40 '-'⟩

/-- The recognized image extensions, case-insensitively
(`f.lower().endswith((".png", ".jpg", ".jpeg", ".bmp", ".tiff"))`, identical
in all four variants). -/
def validExt (f : String) : Bool :=
  let l := pyLower f
  pyEndsWith l (".png") || pyEndsWith l (".jpg") || pyEndsWith l (".jpeg")
    || pyEndsWith l (".bmp") || pyEndsWith l (".tiff")

/-- Cooperative cancellation, modelled by the step index at which the flag
becomes observed as set: `cancelAfter = some k` means the flag is set once
`k` files have been processed, so the check made before processing file index
`idx` sees it exactly when `k ≤ idx`; `none` means it is never set. -/
def cancelRequested (cancelAfter : Option Nat) (idx : Nat) : Bool :=
  match cancelAfter with
  | none => false
  | some k => decide (k ≤ idx)

/-- How many files a loop that checks the flag before each step processes,
starting from index `idx` with `n` files remaining. -/
def stepsBeforeCancel (cancelAfter : Option Nat) (idx n : Nat) : Nat :=
  match cancelAfter with
  | none => n
  | some k => min (k - idx) n

-- ===================== Well-formedness predicates used in statements ====

/-- Every whitespace character of the list is a plain space. -/
def noBadWs (l : List Char) : Bool := l.all (fun c => !isPyWs c || c == ' ')

/-- No two adjacent spaces. -/
def noDoubleSpace : List Char → Bool
  | a :: b :: rest => !(a == ' ' && b == ' ') && noDoubleSpace (b :: rest)
  | _ => true

/-- The first character, when there is one, is not whitespace. -/
def headNotWs (l : List Char) : Bool :=
  match l with
  | [] => true
  | c :: _ => !isPyWs c

/-- Neither end of the list is whitespace. -/
def trimmedB (l : List Char) : Bool := headNotWs l && headNotWs l.reverse

/-- The list of naturals is monotonically non-decreasing. -/
def nondecr : List Nat → Bool
  | a :: b :: rest => decide (a ≤ b) && nondecr (b :: rest)
  | _ => true

-- ===================== tkinter variants' shared OCR wrapper ==============

/-- extract_text_from_image of update.py (lines 11-27), extra_button.py
(lines 9-25) and extra_excel.prompt.py (lines 12-35): joins the recognized
fragments with newlines; on an engine exception returns the error marker.
(extra_excel's scan_mode only selects the engine configuration passed to the
black box, so it does not appear here.) -/
def extract_text_from_image (ocrOut : Except String (List String)) : String :=
  match ocrOut with
  | .error e => "Error: " ++ e
  | .ok results => ⟨pyJoinSep '\n' results⟩

/-- The file/folder name the tkinter variants derive from extracted text:
`extracted_text.split('\n')[0][:50].replace(" ", "_").replace("/", "_")`
(extra_button.py lines 38 and 59, extra_excel.prompt.py line 88). -/
def tkDerivedName (text : String) : String :=
  ⟨((text.data.takeWhile (fun c => !(c == '\n'))).take 50).map
    (fun c => if c == ' ' then '_' else if c == '/' then '_' else c)⟩

/-- Terminal outcome of a tkinter bulk run. `crashed` models an uncaught
exception from the preview `Image.open` killing the worker thread. -/
inductive TkStatus
  | noImages
  | cancelled
  | completed
  | crashed
deriving DecidableEq, BEq

-- ===================== PyQt variant (LRD_QT_EXT.py) =====================

namespace Qt

/-- sanitize_filename (LRD_QT_EXT.py lines 21-22):
`re.sub(r'[\\/*?:"<>|]', "", name)`. -/
def illegalChar (c : Char) : Bool :=
  c == '\\' || c == '/' || c == '*' || c == '?' || c == ':'
    || c == '"' || c == '<' || c == '>' || c == '|'

/-- sanitize_filename removes every character of the illegal set. -/
def sanitize_filename (name : String) : String :=
  ⟨name.data.filter (fun c => !illegalChar c)⟩

/-- OCRWorker._extract_text (LRD_QT_EXT.py lines 48-58): join fragments with
spaces, collapse whitespace, optionally truncate to the configured limit,
then return the stripped text or the sentinel; on an engine exception return
the error marker. -/
def extract_text (limit : Option Nat) (ocrOut : Except String (List String)) : String :=
  match ocrOut with
  | .error e => "Error: " ++ e
  | .ok results =>
    let text := collapseWsL (pyJoinSep ' ' results)
    let text :=
      match limit with
      | none => text
      | some n => text.take n
    if (pyStripL text).isEmpty then noTextSentinel else ⟨pyStripL text⟩

/-- OCRApp.set_text_limit (LRD_QT_EXT.py lines 232-243): a value of 0 clears
the limit (`text_length_limit = None if val == 0 else val`). -/
def set_text_limit (val : Nat) : Option Nat :=
  if val = 0 then none else some val

/-- The folder name of the name-by-content policy (LRD_QT_EXT.py line 98):
`sanitize_filename(extracted_text[:50].replace(" ", "_")) or "Extracted"`. -/
def folderNameFor (extractedText : String) : String :=
  let n := sanitize_filename ⟨spacesToUnderscores (extractedText.data.take 50)⟩
  if n.data.isEmpty then fallbackFolderName else n

/-- One Result Record (LRD_QT_EXT.py lines 111-115). -/
structure Record where
  fileName : String
  extractedText : String
  savedPath : String
deriving DecidableEq

/-- The inputs of one OCRWorker.run: the folder, its listing, the optional
explicit file list, the OCR oracle, the global text_length_limit and
use_full_path, whether the engine loads, and the cancellation schedule. -/
structure Input where
  folderPath : String
  listing : List String
  specificFiles : Option (List String)
  ocr : String → Except String (List String)
  limit : Option Nat
  useFullPath : Bool
  readerOk : Bool
  cancelAfter : Option Nat

/-- The observable outputs accumulated by the loop. -/
structure RunState where
  records : List Record
  dirs : List String
  textFiles : List (String × String)
  progress : List (Nat × Nat)
  ocrCalls : List String

/-- Terminal outcome of OCRWorker.run.  The source emits the same `all_done`
signal whether or not the loop was interrupted, so an interrupted run still
ends in `done`: the worker has no distinct cancelled terminal. -/
inductive Status
  | noImages
  | readerFailed
  | done
deriving DecidableEq, BEq

structure RunResult where
  status : Status
  records : List Record
  dirs : List String
  textFiles : List (String × String)
  progress : List (Nat × Nat)
  ocrCalls : List String
  excelOut : Option (String × List Record)

/-- File selection (LRD_QT_EXT.py lines 62-66): a truthy (non-empty)
specific_files list is used as-is, otherwise the folder listing is filtered
to the image extensions. -/
def selectFiles (specificFiles : Option (List String)) (listing : List String) :
    List String :=
  match specificFiles with
  | some fs => if fs.isEmpty then listing.filter validExt else fs
  | none => listing.filter validExt

/-- One iteration of OCRWorker.run's loop body (LRD_QT_EXT.py lines 90-118):
extract, create the content-named folder when the text is non-blank and not
an error marker, append the unified record, emit progress. -/
def step (inp : Input) (outputFolder : String) (total : Nat)
    (fileName : String) (idx : Nat) (st : RunState) : RunState :=
  let filePath := pathJoin inp.folderPath fileName
  let extractedText := extract_text inp.limit (inp.ocr filePath)
  let createFolder :=
    !(pyStripL extractedText.data).isEmpty && !(pyStartsWith extractedText errorMarkStr)
  let folderName := folderNameFor extractedText
  let folderPathFinal := pathJoin outputFolder folderName
  let savedPath :=
    if createFolder then
      if inp.useFullPath then folderPathFinal
      else pathJoin extractedTextsDirName folderName
    else noFolderSentinel
  { records := st.records ++ [⟨fileName, extractedText, savedPath⟩],
    dirs := st.dirs ++ (if createFolder then [folderPathFinal] else []),
    textFiles := st.textFiles ++
      (if createFolder then [(pathJoin folderPathFinal extractedTextFileName, extractedText)] else []),
    progress := st.progress ++ [(idx + 1, total)],
    ocrCalls := st.ocrCalls ++ [filePath] }

/-- OCRWorker.run's loop (LRD_QT_EXT.py lines 86-118): the interruption flag
is checked before each file; when set the loop breaks at that boundary. -/
def loop (inp : Input) (outputFolder : String) (total : Nat) :
    List String → Nat → RunState → RunState
  | [], _, st => st
  | f :: rest, idx, st =>
    if cancelRequested inp.cancelAfter idx then st
    else loop inp outputFolder total rest (idx + 1) (step inp outputFolder total f idx st)

/-- OCRWorker.run (LRD_QT_EXT.py lines 60-128): select files, fail when none,
create the output folder, load the engine, run the loop, and write the
aggregate spreadsheet when any records exist (also after an interruption). -/
def run (inp : Input) : RunResult :=
  let files := selectFiles inp.specificFiles inp.listing
  if files.isEmpty then
    { status := .noImages, records := [], dirs := [], textFiles := [],
      progress := [], ocrCalls := [], excelOut := none }
  else
    let outputFolder := pathJoin inp.folderPath extractedTextsDirName
    if !inp.readerOk then
      { status := .readerFailed, records := [], dirs := [outputFolder],
        textFiles := [], progress := [], ocrCalls := [], excelOut := none }
    else
      let st := loop inp outputFolder files.length files 0 ⟨[], [outputFolder], [], [], []⟩
      { status := .done, records := st.records, dirs := st.dirs,
        textFiles := st.textFiles, progress := st.progress, ocrCalls := st.ocrCalls,
        excelOut :=
          if st.records.isEmpty then none
          else some (pathJoin outputFolder excelFileName, st.records) }

end Qt

-- ===================== Excel-prompt tkinter variant =====================
-- extra_excel.prompt.py

namespace Excl

/-- The save option selected in the UI (extra_excel.prompt.py lines 175-186). -/
inductive SaveOption
  | singleFile
  | separateFiles
  | extractedName
deriving DecidableEq, BEq

/-- The record appended per file; its keys differ by save option
(extra_excel.prompt.py lines 78, 85 and 94). -/
inductive ExcelRecord
  | singleFile (fileName text : String)
  | separate (fileName savedPath : String)
  | extractedName (name savedPath : String)
deriving DecidableEq, BEq

structure Input where
  folderPath : String
  listing : List String
  saveOption : SaveOption
  ocr : String → Except String (List String)
  /-- Whether `Image.open` succeeds on a path; a failure raises out of the
  worker thread (extra_excel.prompt.py line 101 has no handler). -/
  imgOk : String → Bool
  cancelAfter : Option Nat

/-- Loop state.  `curFolder` is the function's `folder_path` variable: the
`extracted_name` branch reassigns it (extra_excel.prompt.py line 89), so
later iterations compute their `file_path` against the new value. -/
structure State where
  curFolder : String
  records : List ExcelRecord
  dirs : List String
  txtFiles : List (String × String)
  progressValues : List Nat
  ocrCalls : List String

structure RunResult where
  status : TkStatus
  records : List ExcelRecord
  dirs : List String
  txtFiles : List (String × String)
  progressValues : List Nat
  ocrCalls : List String
  excelOut : Option (String × List ExcelRecord)

/-- The per-file body (extra_excel.prompt.py lines 73-99): extract, save per
the selected option, update the progress display. -/
def step (inp : Input) (outputFolder : String) (i : Nat) (f : String)
    (st : State) : State :=
  let filePath := pathJoin st.curFolder f
  let text := extract_text_from_image (inp.ocr filePath)
  let st :=
    match inp.saveOption with
    | .singleFile =>
      { st with records := st.records ++ [ExcelRecord.singleFile f text] }
    | .separateFiles =>
      let sub := pathJoin outputFolder (splitextStem f)
      let tfp := pathJoin sub extractedTextFileName
      { st with dirs := st.dirs ++ [sub],
                txtFiles := st.txtFiles ++ [(tfp, text)],
                records := st.records ++ [ExcelRecord.separate f tfp] }
    | .extractedName =>
      if (pyStripL text.data).isEmpty then st
      else
        let folderName := tkDerivedName text
        let fp := pathJoin outputFolder folderName
        let tfp := pathJoin fp extractedTextFileName
        { st with curFolder := fp,
                  dirs := st.dirs ++ [fp],
                  txtFiles := st.txtFiles ++ [(tfp, text)],
                  records := st.records ++ [ExcelRecord.extractedName folderName tfp] }
  { st with progressValues := st.progressValues ++ [i + 1],
            ocrCalls := st.ocrCalls ++ [filePath] }

/-- The loop of process_bulk_images (extra_excel.prompt.py lines 66-110):
the stop flag is checked before each file; when set the function returns at
once (resetting the progress bar to 0) and the spreadsheet is never written;
a preview failure kills the thread (`crashed`). -/
def loop (inp : Input) (outputFolder : String) :
    List String → Nat → State → TkStatus × State
  | [], _, st => (.completed, st)
  | f :: rest, i, st =>
    if cancelRequested inp.cancelAfter i then
      (.cancelled, { st with progressValues := st.progressValues ++ [0] })
    else
      let filePath := pathJoin st.curFolder f
      let st := step inp outputFolder i f st
      if inp.imgOk filePath then loop inp outputFolder rest (i + 1) st
      else (.crashed, st)

/-- process_bulk_images (extra_excel.prompt.py lines 37-118): filter the
listing, fail when no images, create the output folder, run the loop, and
write the spreadsheet only when the loop ran to completion. -/
def process_bulk_images (inp : Input) : RunResult :=
  let files := inp.listing.filter validExt
  if files.isEmpty then
    { status := .noImages, records := [], dirs := [], txtFiles := [],
      progressValues := [], ocrCalls := [], excelOut := none }
  else
    let outputFolder := pathJoin inp.folderPath extractedTextsDirName
    let r := loop inp outputFolder files 0 ⟨inp.folderPath, [], [outputFolder], [], [], []⟩
    { status := r.1, records := r.2.records, dirs := r.2.dirs,
      txtFiles := r.2.txtFiles, progressValues := r.2.progressValues,
      ocrCalls := r.2.ocrCalls,
      excelOut :=
        match r.1 with
        | .completed => some (pathJoin outputFolder excelFileName, r.2.records)
        | _ => none }

end Excl

-- ===================== update.py tkinter variant =====================

namespace Upd

structure Input where
  folderPath : String
  listing : List String
  ocr : String → Except String (List String)
  /-- Whether `Image.open` succeeds on a path (update.py line 72 has no
  handler). -/
  imgOk : String → Bool
  cancelAfter : Option Nat

structure State where
  entries : List String
  progressValues : List Nat
  ocrCalls : List String

structure RunResult where
  status : TkStatus
  /-- The aggregate text file's path when the run opened (hence created) it;
  update.py line 53 opens it before the loop, so it exists even when
  cancellation strikes before any file is processed. -/
  aggregatePath : Option String
  entries : List String
  progressValues : List Nat
  ocrCalls : List String

/-- The entry written per file (update.py line 65):
`f"{file_name}:\n{extracted_text}\n{'-'*40}\n"`. -/
def entryFor (folderPath : String) (ocr : String → Except String (List String))
    (f : String) : String :=
  f ++ ":\n" ++ extract_text_from_image (ocr (pathJoin folderPath f)) ++ "\n"
    ++ dashes40 ++ "\n"

/-- The loop of process_bulk_images (update.py lines 54-78): the stop flag is
checked before each file; when set the function returns, resetting the
progress bar to 0. -/
def loop (inp : Input) : List String → Nat → State → TkStatus × State
  | [], _, st => (.completed, st)
  | f :: rest, i, st =>
    if cancelRequested inp.cancelAfter i then
      (.cancelled, { st with progressValues := st.progressValues ++ [0] })
    else
      let filePath := pathJoin inp.folderPath f
      let st := { st with entries := st.entries ++ [entryFor inp.folderPath inp.ocr f],
                          progressValues := st.progressValues ++ [i + 1],
                          ocrCalls := st.ocrCalls ++ [filePath] }
      if inp.imgOk filePath then loop inp rest (i + 1) st
      else (.crashed, st)

/-- process_bulk_images (update.py lines 29-81): filter the listing, fail
when no images, open (create) the aggregate text file, then run the loop
writing one entry per file. -/
def process_bulk_images (inp : Input) : RunResult :=
  let files := inp.listing.filter validExt
  if files.isEmpty then
    { status := .noImages, aggregatePath := none, entries := [],
      progressValues := [], ocrCalls := [] }
  else
    let outPath := pathJoin inp.folderPath aggregateTxtName
    let r := loop inp files 0 ⟨[], [], []⟩
    { status := r.1, aggregatePath := some outPath, entries := r.2.entries,
      progressValues := r.2.progressValues, ocrCalls := r.2.ocrCalls }

end Upd

-- ===================== extra_button.py tkinter variant ==================

namespace Btn

structure Input where
  folderPath : String
  listing : List String
  saveAsPdf : Bool
  ocr : String → Except String (List String)
  /-- An external cancellation request, modelled as in the other variants by
  the number of files after which it arrives.  The bulk loop of
  extra_button.py (lines 99-115) contains no check of any stop flag — unlike
  update.py line 55 and extra_excel.prompt.py line 67 — and the file defines
  no cancel command for bulk processing, so this field is never consulted. -/
  cancelAfter : Option Nat

structure State where
  txtFiles : List (String × String)
  pdfPages : List (String × String)
  progressValues : List Nat
  ocrCalls : List String

structure RunResult where
  status : TkStatus
  txtFiles : List (String × String)
  pdfOut : Option (String × List (String × String))
  progressValues : List Nat
  ocrCalls : List String

/-- The loop of process_bulk_images (extra_button.py lines 99-115): every
file is processed unconditionally; a .txt file named after the source image
is written per file, and a PDF page is accumulated when requested. -/
def loop (inp : Input) : List String → Nat → State → State
  | [], _, st => st
  | f :: rest, i, st =>
    let filePath := pathJoin inp.folderPath f
    let text := extract_text_from_image (inp.ocr filePath)
    loop inp rest (i + 1)
      { txtFiles := st.txtFiles ++ [(pathJoin inp.folderPath (splitextStem f ++ ".txt"), text)],
        pdfPages := st.pdfPages ++ (if inp.saveAsPdf then [(f, text)] else []),
        progressValues := st.progressValues ++ [i + 1],
        ocrCalls := st.ocrCalls ++ [filePath] }

/-- process_bulk_images (extra_button.py lines 76-122): filter the listing,
fail when no images, process every file, and write the aggregate PDF when
requested. -/
def process_bulk_images (inp : Input) : RunResult :=
  let files := inp.listing.filter validExt
  if files.isEmpty then
    { status := .noImages, txtFiles := [], pdfOut := none,
      progressValues := [], ocrCalls := [] }
  else
    let st := loop inp files 0 ⟨[], [], [], []⟩
    { status := .completed, txtFiles := st.txtFiles,
      pdfOut :=
        if inp.saveAsPdf then some (pathJoin inp.folderPath pdfFileName, st.pdfPages)
        else none,
      progressValues := st.progressValues, ocrCalls := st.ocrCalls }

/-- save_text_as_filename (extra_button.py lines 27-47): extract text from
the image; when non-blank, write it to a file named from its first line
(spaces and slashes replaced by underscores); otherwise save nothing.
Returns the (path, content) written, if any. -/
def save_text_as_filename (ocrOut : Except String (List String))
    (folderPath : String) : Option (String × String) :=
  let extractedText := extract_text_from_image ocrOut
  if (pyStripL extractedText.data).isEmpty then none
  else
    let filename := tkDerivedName extractedText ++ ".txt"
    some (pathJoin folderPath filename, extractedText)

end Btn

-- ===================== Helper lemmas: words and whitespace ==============

theorem char_ne_space_of_not_ws {c : Char} (h : isPyWs c = false) : (c == ' ') = false := by
  simp only [isPyWs, Bool.or_eq_false_iff] at h
  exact h.1.1.1.1.1

theorem wordsAux_sound : ∀ (l acc : List Char), (∀ c ∈ acc, isPyWs c = false) →
    ∀ w ∈ wordsAux l acc, w ≠ [] ∧ ∀ c ∈ w, isPyWs c = false := by
  intro l
  induction l with
  | nil =>
    intro acc hacc w hw
    cases acc with
    | nil => simp [wordsAux] at hw
    | cons a as =>
      simp [wordsAux] at hw
      subst hw
      refine ⟨by simp, ?_⟩
      intro c hc
      apply hacc
      rcases List.mem_append.mp hc with h1 | h1
      · exact List.mem_cons_of_mem _ (List.mem_reverse.mp h1)
      · rw [List.mem_singleton] at h1; subst h1; exact List.mem_cons_self _ _
  | cons c cs ih =>
    intro acc hacc w hw
    by_cases h : isPyWs c = true
    · cases acc with
      | nil =>
        simp [wordsAux, h] at hw
        exact ih [] (by simp) w hw
      | cons a as =>
        simp [wordsAux, h] at hw
        rcases hw with hw | hw
        · subst hw
          refine ⟨by simp, ?_⟩
          intro d hd
          apply hacc
          rcases List.mem_append.mp hd with h1 | h1
          · exact List.mem_cons_of_mem _ (List.mem_reverse.mp h1)
          · rw [List.mem_singleton] at h1; subst h1; exact List.mem_cons_self _ _
        · exact ih [] (by simp) w hw
    · simp only [Bool.not_eq_true] at h
      simp [wordsAux, h] at hw
      refine ih (c :: acc) ?_ w hw
      intro d hd
      rcases List.mem_cons.mp hd with hd | hd
      · subst hd; exact h
      · exact hacc d hd

theorem words_sound (l : List Char) :
    ∀ w ∈ words l, w ≠ [] ∧ ∀ c ∈ w, isPyWs c = false :=
  wordsAux_sound l [] (by simp)

theorem wordsAux_join : ∀ (l acc : List Char),
    (wordsAux l acc).flatten = acc.reverse ++ l.filter (fun c => !isPyWs c) := by
  intro l
  induction l with
  | nil =>
    intro acc
    cases acc with
    | nil => simp [wordsAux]
    | cons a as => simp [wordsAux]
  | cons c cs ih =>
    intro acc
    by_cases h : isPyWs c = true
    · cases acc with
      | nil => simp [wordsAux, h, ih]
      | cons a as => simp [wordsAux, h, ih]
    · simp only [Bool.not_eq_true] at h
      simp [wordsAux, h, ih]

theorem words_join (l : List Char) :
    (words l).flatten = l.filter (fun c => !isPyWs c) := by
  simpa using wordsAux_join l []

-- ===================== Helper lemmas: unwords ==============

theorem unwords_ne_nil : ∀ (ws : List (List Char)), ws ≠ [] →
    (∀ w ∈ ws, w ≠ []) → unwords ws ≠ [] := by
  intro ws hne hw
  cases ws with
  | nil => exact absurd rfl hne
  | cons w rest =>
    cases rest with
    | nil =>
      simpa [unwords] using hw w (by simp)
    | cons v vs =>
      simp only [unwords]
      intro h
      simp [List.append_eq_nil] at h

theorem unwords_headNotWs : ∀ (ws : List (List Char)),
    (∀ w ∈ ws, w ≠ [] ∧ ∀ c ∈ w, isPyWs c = false) →
    headNotWs (unwords ws) = true := by
  intro ws hws
  cases ws with
  | nil => simp [unwords, headNotWs]
  | cons w rest =>
    obtain ⟨hne, hchars⟩ := hws w (by simp)
    cases hwl : w with
    | nil => exact absurd hwl hne
    | cons c w0 =>
      have hc : isPyWs c = false := hchars c (by simp [hwl])
      cases rest with
      | nil => simp [unwords, headNotWs, hwl, hc]
      | cons v vs => simp [unwords, hwl, headNotWs, hc]

theorem unwords_filter : ∀ (ws : List (List Char)),
    (∀ w ∈ ws, ∀ c ∈ w, isPyWs c = false) →
    (unwords ws).filter (fun c => !isPyWs c) = ws.flatten := by
  intro ws
  induction ws with
  | nil => simp [unwords]
  | cons w rest ih =>
    intro hws
    have hw : ∀ c ∈ w, isPyWs c = false := hws w (by simp)
    have hfw : w.filter (fun c => !isPyWs c) = w := by
      apply List.filter_eq_self.mpr
      intro c hc
      simp [hw c hc]
    cases rest with
    | nil => simp [unwords, hfw]
    | cons v vs =>
      have ihr := ih (fun u hu => hws u (by simp [hu]))
      simp only [unwords] at ihr ⊢
      rw [List.filter_append, hfw, List.filter_cons]
      simp only [show (!isPyWs ' ') = false from rfl, Bool.false_eq_true, if_false, ihr]
      simp [List.flatten]

theorem unwords_noBadWs : ∀ (ws : List (List Char)),
    (∀ w ∈ ws, ∀ c ∈ w, isPyWs c = false) →
    noBadWs (unwords ws) = true := by
  intro ws
  induction ws with
  | nil => simp [unwords, noBadWs]
  | cons w rest ih =>
    intro hws
    have hw : ∀ c ∈ w, isPyWs c = false := hws w (by simp)
    have hall : w.all (fun c => !isPyWs c || c == ' ') = true := by
      apply List.all_eq_true.mpr
      intro c hc
      simp [hw c hc]
    cases rest with
    | nil => simpa [unwords, noBadWs] using hall
    | cons v vs =>
      have ihr := ih (fun u hu => hws u (by simp [hu]))
      simp only [unwords, noBadWs] at ihr ⊢
      simp [List.all_append, List.all_cons, hall, ihr]

theorem noDoubleSpace_cons {a : Char} {l : List Char} (ha : (a == ' ') = false)
    (hl : noDoubleSpace l = true) : noDoubleSpace (a :: l) = true := by
  cases l with
  | nil => simp [noDoubleSpace]
  | cons b r => simp [noDoubleSpace, ha, hl]

theorem noDoubleSpace_of_nonws : ∀ (l : List Char),
    (∀ c ∈ l, isPyWs c = false) → noDoubleSpace l = true := by
  intro l
  induction l with
  | nil => simp [noDoubleSpace]
  | cons a r ih =>
    intro h
    exact noDoubleSpace_cons (char_ne_space_of_not_ws (h a (by simp)))
      (ih (fun c hc => h c (by simp [hc])))

theorem noDoubleSpace_append_word : ∀ (w t : List Char),
    (∀ c ∈ w, isPyWs c = false) → noDoubleSpace t = true →
    noDoubleSpace (w ++ t) = true := by
  intro w
  induction w with
  | nil => intro t _ ht; simpa using ht
  | cons a w0 ih =>
    intro t hw ht
    rw [List.cons_append]
    exact noDoubleSpace_cons (char_ne_space_of_not_ws (hw a (by simp)))
      (ih t (fun c hc => hw c (by simp [hc])) ht)

theorem unwords_noDoubleSpace : ∀ (ws : List (List Char)),
    (∀ w ∈ ws, w ≠ [] ∧ ∀ c ∈ w, isPyWs c = false) →
    noDoubleSpace (unwords ws) = true := by
  intro ws
  induction ws with
  | nil => simp [unwords, noDoubleSpace]
  | cons w rest ih =>
    intro hws
    have hw := hws w (by simp)
    cases rest with
    | nil =>
      simpa [unwords] using noDoubleSpace_of_nonws w hw.2
    | cons v vs =>
      have hrest : ∀ u ∈ v :: vs, u ≠ [] ∧ ∀ c ∈ u, isPyWs c = false :=
        fun u hu => hws u (by simp [hu])
      have ihr := ih hrest
      have hu_ne : unwords (v :: vs) ≠ [] :=
        unwords_ne_nil (v :: vs) (by simp) (fun u hu => (hrest u hu).1)
      have hu_head : headNotWs (unwords (v :: vs)) = true := unwords_headNotWs _ hrest
      simp only [unwords]
      apply noDoubleSpace_append_word w (' ' :: unwords (v :: vs)) hw.2
      cases hul : unwords (v :: vs) with
      | nil => exact absurd hul hu_ne
      | cons c u0 =>
        rw [hul] at ihr hu_head
        simp only [headNotWs, Bool.not_eq_true'] at hu_head
        have hc : (c == ' ') = false := char_ne_space_of_not_ws hu_head
        simp [noDoubleSpace, hc, ihr]

theorem headNotWs_reverse_unwords : ∀ (ws : List (List Char)),
    (∀ w ∈ ws, w ≠ [] ∧ ∀ c ∈ w, isPyWs c = false) →
    headNotWs (unwords ws).reverse = true := by
  intro ws
  induction ws with
  | nil => simp [unwords, headNotWs]
  | cons w rest ih =>
    intro hws
    have hw := hws w (by simp)
    cases rest with
    | nil =>
      simp only [unwords]
      cases hwr : w.reverse with
      | nil => simp [headNotWs]
      | cons c r0 =>
        have hc : c ∈ w := List.mem_reverse.mp (by simp [hwr])
        simp [headNotWs, hw.2 c hc]
    | cons v vs =>
      have hrest : ∀ u ∈ v :: vs, u ≠ [] ∧ ∀ c ∈ u, isPyWs c = false :=
        fun u hu => hws u (by simp [hu])
      have ihr := ih hrest
      have hu_ne : unwords (v :: vs) ≠ [] :=
        unwords_ne_nil (v :: vs) (by simp) (fun u hu => (hrest u hu).1)
      simp only [unwords, List.reverse_append, List.reverse_cons]
      cases hul : (unwords (v :: vs)).reverse with
      | nil => exact absurd (by simpa using congrArg List.reverse hul) hu_ne
      | cons c u0 =>
        rw [hul] at ihr
        simp only [headNotWs] at ihr
        simp [List.append_assoc, headNotWs, ihr]

-- ===================== Helper lemmas: strip and collapse ==============

theorem dropWhile_eq_self_of_headNotWs {l : List Char} (h : headNotWs l = true) :
    l.dropWhile isPyWs = l := by
  cases l with
  | nil => rfl
  | cons c r =>
    simp only [headNotWs, Bool.not_eq_true'] at h
    simp [List.dropWhile_cons, h]

theorem pyStripL_eq_self {l : List Char} (h1 : headNotWs l = true)
    (h2 : headNotWs l.reverse = true) : pyStripL l = l := by
  unfold pyStripL
  rw [dropWhile_eq_self_of_headNotWs h1, dropWhile_eq_self_of_headNotWs h2,
    List.reverse_reverse]

theorem pyStripL_length_le (l : List Char) : (pyStripL l).length ≤ l.length := by
  unfold pyStripL
  calc ((l.dropWhile isPyWs).reverse.dropWhile isPyWs).reverse.length
      = ((l.dropWhile isPyWs).reverse.dropWhile isPyWs).length := by
        rw [List.length_reverse]
    _ ≤ (l.dropWhile isPyWs).reverse.length :=
        ((l.dropWhile isPyWs).reverse.dropWhile_sublist isPyWs).length_le
    _ = (l.dropWhile isPyWs).length := by rw [List.length_reverse]
    _ ≤ l.length := (l.dropWhile_sublist isPyWs).length_le

theorem collapseWsL_props (l : List Char) (h : words l ≠ []) :
    noBadWs (collapseWsL l) = true ∧ noDoubleSpace (collapseWsL l) = true
    ∧ headNotWs (collapseWsL l) = true ∧ headNotWs (collapseWsL l).reverse = true
    ∧ (collapseWsL l).filter (fun c => !isPyWs c) = l.filter (fun c => !isPyWs c)
    ∧ collapseWsL l ≠ [] := by
  have hs := words_sound l
  refine ⟨unwords_noBadWs _ (fun w hw => (hs w hw).2),
    unwords_noDoubleSpace _ hs,
    unwords_headNotWs _ hs,
    headNotWs_reverse_unwords _ hs, ?_, ?_⟩
  · rw [collapseWsL, unwords_filter _ (fun w hw => (hs w hw).2), words_join]
  · exact unwords_ne_nil _ h (fun w hw => (hs w hw).1)

theorem collapseWsL_strip (l : List Char) :
    pyStripL (collapseWsL l) = collapseWsL l := by
  cases hw : words l with
  | nil => simp [collapseWsL, hw, unwords, pyStripL]
  | cons w ws =>
    have h := collapseWsL_props l (by simp [hw])
    exact pyStripL_eq_self h.2.2.1 h.2.2.2.1

theorem string_mk_length (l : List Char) : (⟨l⟩ : String).length = l.length := rfl

theorem string_mk_data (l : List Char) : (⟨l⟩ : String).data = l := rfl

-- ===================== Helper lemmas: the PyQt loop ==============

theorem qt_step_records_length (inp : Qt.Input) (out : String) (total : Nat)
    (f : String) (idx : Nat) (st : Qt.RunState) :
    (Qt.step inp out total f idx st).records.length = st.records.length + 1 := by
  simp [Qt.step]

theorem qt_step_progress (inp : Qt.Input) (out : String) (total : Nat)
    (f : String) (idx : Nat) (st : Qt.RunState) :
    (Qt.step inp out total f idx st).progress = st.progress ++ [(idx + 1, total)] := rfl

theorem stepsBeforeCancel_nil (ca : Option Nat) (idx : Nat) :
    stepsBeforeCancel ca idx 0 = 0 := by
  cases ca <;> simp [stepsBeforeCancel]

theorem qt_loop_records_length (inp : Qt.Input) (out : String) (total : Nat) :
    ∀ (files : List String) (idx : Nat) (st : Qt.RunState),
    (Qt.loop inp out total files idx st).records.length =
      st.records.length + stepsBeforeCancel inp.cancelAfter idx files.length := by
  intro files
  induction files with
  | nil => intro idx st; simp [Qt.loop, stepsBeforeCancel_nil]
  | cons f rest ih =>
    intro idx st
    cases hca : inp.cancelAfter with
    | none =>
      simp only [Qt.loop, cancelRequested, hca, Bool.false_eq_true, if_false]
      rw [ih, qt_step_records_length]
      simp only [hca, stepsBeforeCancel, List.length_cons]
      omega
    | some k =>
      by_cases hk : k ≤ idx
      · simp only [Qt.loop, cancelRequested, hca, decide_eq_true_eq, if_pos hk]
        simp only [stepsBeforeCancel, List.length_cons]
        omega
      · simp only [Qt.loop, cancelRequested, hca, decide_eq_true_eq, if_neg hk]
        rw [ih, qt_step_records_length]
        simp only [hca, stepsBeforeCancel, List.length_cons]
        omega

theorem qt_loop_progress (inp : Qt.Input) (out : String) (total : Nat) :
    ∀ (files : List String) (idx : Nat) (st : Qt.RunState),
    (Qt.loop inp out total files idx st).progress =
      st.progress ++ (List.range (stepsBeforeCancel inp.cancelAfter idx files.length)).map
        (fun j => (idx + j + 1, total)) := by
  intro files
  induction files with
  | nil => intro idx st; simp [Qt.loop, stepsBeforeCancel_nil]
  | cons f rest ih =>
    intro idx st
    have hshift : ∀ m : Nat,
        (List.range (m + 1)).map (fun j => (idx + j + 1, total)) =
          (idx + 1, total) :: (List.range m).map (fun j => (idx + 1 + j + 1, total)) := by
      intro m
      rw [List.range_succ_eq_map, List.map_cons, List.map_map]
      refine congrArg₂ _ (by simp) ?_
      apply List.map_congr_left
      intro j _
      show (idx + (j + 1) + 1, total) = (idx + 1 + j + 1, total)
      congr 1
      omega
    cases hca : inp.cancelAfter with
    | none =>
      simp only [Qt.loop, cancelRequested, hca, Bool.false_eq_true, if_false]
      rw [ih, qt_step_progress]
      simp only [hca, stepsBeforeCancel, List.length_cons]
      rw [hshift rest.length, List.append_assoc]
      rfl
    | some k =>
      by_cases hk : k ≤ idx
      · simp only [Qt.loop, cancelRequested, hca, decide_eq_true_eq, if_pos hk]
        have h0 : stepsBeforeCancel (some k) idx (f :: rest).length = 0 := by
          simp only [stepsBeforeCancel, List.length_cons]; omega
        rw [h0]
        simp
      · simp only [Qt.loop, cancelRequested, hca, decide_eq_true_eq, if_neg hk]
        rw [ih, qt_step_progress]
        simp only [hca, stepsBeforeCancel, List.length_cons]
        have hm : min (k - idx) (rest.length + 1) = min (k - (idx + 1)) rest.length + 1 := by
          omega
        rw [hm, hshift, List.append_assoc]
        rfl


-- ===================== Helper lemmas: the tkinter loops ==============

theorem upd_loop_cons_cancel (inp : Upd.Input) (f : String) (rest : List String)
    (i : Nat) (st : Upd.State) (h : cancelRequested inp.cancelAfter i = true) :
    Upd.loop inp (f :: rest) i st =
      (TkStatus.cancelled, { st with progressValues := st.progressValues ++ [0] }) := by
  simp [Upd.loop, h]

theorem upd_loop_cons_go (inp : Upd.Input) (f : String) (rest : List String)
    (i : Nat) (st : Upd.State) (h : cancelRequested inp.cancelAfter i = false)
    (himg : inp.imgOk (pathJoin inp.folderPath f) = true) :
    Upd.loop inp (f :: rest) i st =
      Upd.loop inp rest (i + 1)
        { st with entries := st.entries ++ [Upd.entryFor inp.folderPath inp.ocr f],
                  progressValues := st.progressValues ++ [i + 1],
                  ocrCalls := st.ocrCalls ++ [pathJoin inp.folderPath f] } := by
  simp [Upd.loop, h, himg]

theorem upd_loop_characterize (fp : String) (listing : List String)
    (ocr : String → Except String (List String)) (k : Nat) :
    ∀ (files : List String) (idx : Nat) (st : Upd.State),
    ((Upd.loop ⟨fp, listing, ocr, fun _ => true, some k⟩ files idx st).1 =
        if files.length ≤ k - idx then TkStatus.completed else TkStatus.cancelled)
    ∧ (Upd.loop ⟨fp, listing, ocr, fun _ => true, some k⟩ files idx st).2.entries =
        st.entries ++ (files.take (min (k - idx) files.length)).map (Upd.entryFor fp ocr)
    ∧ (Upd.loop ⟨fp, listing, ocr, fun _ => true, some k⟩ files idx st).2.ocrCalls =
        st.ocrCalls ++ (files.take (min (k - idx) files.length)).map (fun f => pathJoin fp f) := by
  intro files
  induction files with
  | nil =>
    intro idx st
    refine ⟨?_, ?_, ?_⟩ <;> simp [Upd.loop]
  | cons f rest ih =>
    intro idx st
    by_cases hk : k ≤ idx
    · have hc : cancelRequested ((⟨fp, listing, ocr, fun _ => true, some k⟩ : Upd.Input)).cancelAfter idx = true := by
        simp [cancelRequested, hk]
      rw [upd_loop_cons_cancel _ _ _ _ _ hc]
      have hm : min (k - idx) (f :: rest).length = 0 := by
        simp only [List.length_cons]; omega
      rw [hm]
      refine ⟨?_, by simp, by simp⟩
      rw [if_neg (by simp only [List.length_cons]; omega)]
    · have hc : cancelRequested ((⟨fp, listing, ocr, fun _ => true, some k⟩ : Upd.Input)).cancelAfter idx = false := by
        simp [cancelRequested, hk]
      rw [upd_loop_cons_go _ _ _ _ _ hc rfl]
      obtain ⟨ih1, ih2, ih3⟩ := ih (idx + 1)
        { st with entries := st.entries ++ [Upd.entryFor fp ocr f],
                  progressValues := st.progressValues ++ [idx + 1],
                  ocrCalls := st.ocrCalls ++ [pathJoin fp f] }
      have hm : min (k - idx) (f :: rest).length =
          min (k - (idx + 1)) rest.length + 1 := by
        simp only [List.length_cons]; omega
      refine ⟨?_, ?_, ?_⟩
      · rw [ih1]
        by_cases hr : rest.length ≤ k - (idx + 1)
        · rw [if_pos hr, if_pos (by simp only [List.length_cons]; omega)]
        · rw [if_neg hr, if_neg (by simp only [List.length_cons]; omega)]
      · rw [ih2, hm]
        dsimp only
        rw [List.take_succ_cons, List.map_cons, List.append_assoc, List.singleton_append]
      · rw [ih3, hm]
        dsimp only
        rw [List.take_succ_cons, List.map_cons, List.append_assoc, List.singleton_append]

theorem excl_step_records_length (inp : Excl.Input) (out : String) (i : Nat)
    (f : String) (st : Excl.State)
    (hso : inp.saveOption = Excl.SaveOption.singleFile
      ∨ inp.saveOption = Excl.SaveOption.separateFiles) :
    (Excl.step inp out i f st).records.length = st.records.length + 1 := by
  rcases hso with h | h <;> simp [Excl.step, h]

theorem excl_loop_cons_go (inp : Excl.Input) (out : String) (f : String)
    (rest : List String) (i : Nat) (st : Excl.State)
    (h : cancelRequested inp.cancelAfter i = false)
    (himg : inp.imgOk (pathJoin st.curFolder f) = true) :
    Excl.loop inp out (f :: rest) i st =
      Excl.loop inp out rest (i + 1) (Excl.step inp out i f st) := by
  simp [Excl.loop, h, himg]

theorem excl_loop_count (inp : Excl.Input) (out : String)
    (hso : inp.saveOption = Excl.SaveOption.singleFile
      ∨ inp.saveOption = Excl.SaveOption.separateFiles)
    (hca : inp.cancelAfter = none) (himg : ∀ p, inp.imgOk p = true) :
    ∀ (files : List String) (i : Nat) (st : Excl.State),
    (Excl.loop inp out files i st).1 = TkStatus.completed
    ∧ (Excl.loop inp out files i st).2.records.length =
        st.records.length + files.length := by
  intro files
  induction files with
  | nil => intro i st; exact ⟨rfl, by simp [Excl.loop]⟩
  | cons f rest ih =>
    intro i st
    have hc : cancelRequested inp.cancelAfter i = false := by
      simp [cancelRequested, hca]
    rw [excl_loop_cons_go inp out f rest i st hc (himg _)]
    obtain ⟨ih1, ih2⟩ := ih (i + 1) (Excl.step inp out i f st)
    refine ⟨ih1, ?_⟩
    rw [ih2, excl_step_records_length inp out i f st hso]
    simp only [List.length_cons]
    omega

theorem btn_loop_lengths (inp : Btn.Input) :
    ∀ (files : List String) (i : Nat) (st : Btn.State),
    (Btn.loop inp files i st).txtFiles.length = st.txtFiles.length + files.length
    ∧ (Btn.loop inp files i st).ocrCalls =
        st.ocrCalls ++ files.map (fun f => pathJoin inp.folderPath f) := by
  intro files
  induction files with
  | nil => intro i st; exact ⟨by simp [Btn.loop], by simp [Btn.loop]⟩
  | cons f rest ih =>
    intro i st
    obtain ⟨ih1, ih2⟩ := ih (i + 1)
      { txtFiles := st.txtFiles ++ [(pathJoin inp.folderPath (splitextStem f ++ ".txt"),
          extract_text_from_image (inp.ocr (pathJoin inp.folderPath f)))],
        pdfPages := st.pdfPages ++
          (if inp.saveAsPdf then [(f, extract_text_from_image (inp.ocr (pathJoin inp.folderPath f)))] else []),
        progressValues := st.progressValues ++ [i + 1],
        ocrCalls := st.ocrCalls ++ [pathJoin inp.folderPath f] }
    refine ⟨?_, ?_⟩
    · simp only [Btn.loop]
      rw [ih1]
      simp only [List.length_append, List.length_cons, List.length_nil]
      omega
    · simp only [Btn.loop]
      rw [ih2]
      simp only [List.map_cons, List.append_assoc, List.singleton_append]

-- ===================== Helper lemmas: monotone progress ==============

theorem nondecr_append : ∀ (l : List Nat) (v : Nat), nondecr l = true →
    (∀ x ∈ l, x ≤ v) → nondecr (l ++ [v]) = true := by
  intro l
  induction l with
  | nil => intro v _ _; simp [nondecr]
  | cons a r ih =>
    intro v hl hb
    cases r with
    | nil =>
      simp only [List.cons_append, List.nil_append, nondecr, Bool.and_eq_true,
        decide_eq_true_eq]
      exact ⟨hb a (by simp), trivial⟩
    | cons b r0 =>
      simp only [nondecr, Bool.and_eq_true, decide_eq_true_eq] at hl
      simp only [List.cons_append, nondecr, Bool.and_eq_true, decide_eq_true_eq]
      refine ⟨hl.1, ?_⟩
      have := ih v hl.2 (fun x hx => hb x (List.mem_cons_of_mem _ hx))
      simpa using this

theorem nondecr_range_succ : ∀ (m : Nat),
    nondecr ((List.range m).map (fun j => j + 1)) = true := by
  intro m
  induction m with
  | zero => simp [nondecr]
  | succ n ih =>
    rw [List.range_succ, List.map_append]
    apply nondecr_append _ _ ih
    intro x hx
    simp only [List.mem_map, List.mem_range] at hx
    obtain ⟨j, hj, rfl⟩ := hx
    dsimp only
    omega

-- ===================== Helper lemmas: sanitization ==============

theorem filter_no_illegal (l : List Char) :
    (l.filter (fun c => !Qt.illegalChar c)).any Qt.illegalChar = false := by
  induction l with
  | nil => rfl
  | cons c rest ih =>
    by_cases h : Qt.illegalChar c = true
    · simp [List.filter_cons, h, ih]
    · simp only [Bool.not_eq_true] at h
      simp [List.filter_cons, h, ih]

-- ===================== Claim theorems ==============

/-- Claim C8: for the job over a.png (OCR yields "Hello World") and b.jpg
(OCR raises) under the name-by-content policy with no length limit, exactly
two directories are created — the output root Extracted_Texts and a's
subfolder named from the sanitized Hello_World prefix — a's folder holds the
fixed-name text file with content "Hello World", and b's record carries the
error marker text and the "[No folder created]" saved-path sentinel. -/
theorem C8_scenario_two_files :
    ((Qt.run ⟨"F", ["a.png", "b.jpg"], none,
        fun p => if p = "F/a.png" then Except.ok (["Hello World"]) else Except.error ("boom"),
        none, true, true, none⟩).dirs =
      ["F/Extracted_Texts", "F/Extracted_Texts/Hello_World"])
    ∧ (Qt.run ⟨"F", ["a.png", "b.jpg"], none,
        fun p => if p = "F/a.png" then Except.ok (["Hello World"]) else Except.error ("boom"),
        none, true, true, none⟩).dirs.length = 2
    ∧ (Qt.run ⟨"F", ["a.png", "b.jpg"], none,
        fun p => if p = "F/a.png" then Except.ok (["Hello World"]) else Except.error ("boom"),
        none, true, true, none⟩).textFiles =
      [("F/Extracted_Texts/Hello_World/extracted_text.txt", "Hello World")]
    ∧ (Qt.run ⟨"F", ["a.png", "b.jpg"], none,
        fun p => if p = "F/a.png" then Except.ok (["Hello World"]) else Except.error ("boom"),
        none, true, true, none⟩).records =
      [⟨"a.png", "Hello World", "F/Extracted_Texts/Hello_World"⟩,
       ⟨"b.jpg", "Error: boom", noFolderSentinel⟩] := by
  refine ⟨?_, ?_, ?_, ?_⟩ <;> decide

/-- Claim C10: in the PyQt name-by-content policy the folder name derived
from extracted text is never empty: when sanitizing the underscored 50
character prefix leaves nothing, the fallback name "Extracted" is used. -/
theorem C10_folder_name_never_empty : ∀ s : String,
    ((Qt.folderNameFor s).data.isEmpty) = false := by
  intro s
  simp only [Qt.folderNameFor]
  split
  · decide
  · next h => simpa using h

/-- Claim C6 counterexample: the tkinter variants' name derivation replaces
only spaces and forward slashes, so the colon of "a:b" survives into the
file name save_text_as_filename writes, contradicting the claim that no
derived name contains any of the nine illegal characters. -/
theorem C6_counterexample_colon_survives :
    Btn.save_text_as_filename (Except.ok (["a:b"])) ("F") =
      some ("F/a:b.txt", "a:b")
    ∧ ((tkDerivedName ("a:b") ++ ".txt").data.any Qt.illegalChar) = true := by
  refine ⟨?_, ?_⟩ <;> decide

/-- Claim C6 amended: the PyQt variant's sanitize_filename strips all nine
illegal characters, and the folder names its name-by-content policy derives
(folderNameFor) never contain one; the tkinter variants' derived names
replace only spaces and "/" and may retain the other illegal characters. -/
theorem C6_amended_sanitize_strips_all : ∀ s : String,
    ((Qt.sanitize_filename s).data.any Qt.illegalChar) = false
    ∧ ((Qt.folderNameFor s).data.any Qt.illegalChar) = false := by
  intro s
  constructor
  · exact filter_no_illegal s.data
  · simp only [Qt.folderNameFor]
    split
    · decide
    · exact filter_no_illegal _

/-- Claim C5 counterexample: with a text length limit of 1, an OCR result
with no text stores the 15 character sentinel "[No text found]", and an OCR
failure stores the 11 character marker "Error: boom" — both exceed the
limit, contradicting the claim that no stored text (including error markers
and sentinels) exceeds N characters. -/
theorem C5_counterexample_sentinel_exceeds_limit :
    Qt.extract_text (some 1) (Except.ok []) = noTextSentinel
    ∧ noTextSentinel.length = 15
    ∧ 1 < noTextSentinel.length
    ∧ Qt.extract_text (some 1) (Except.error ("boom")) = "Error: boom"
    ∧ 1 < ("Error: boom").length := by
  refine ⟨?_, ?_, ?_, ?_, ?_⟩ <;> decide

/-- Claim C5 amended: a limit of 0 is recorded as no limit (unlimited), and
under a limit N the PyQt variant's stored text for a successful OCR call is
either at most N characters or exactly the untruncated sentinel
"[No text found]"; error markers are likewise stored untruncated.  The
truncation is applied before the sentinel substitution, so only the
truncated OCR text itself respects the bound. -/
theorem C5_amended_truncation_before_sentinel :
    Qt.set_text_limit 0 = none
    ∧ ∀ (n : Nat) (results : List String),
      Qt.extract_text (some n) (Except.ok results) = noTextSentinel
      ∨ (Qt.extract_text (some n) (Except.ok results)).length ≤ n := by
  refine ⟨rfl, ?_⟩
  intro n results
  simp only [Qt.extract_text]
  by_cases h : (pyStripL ((collapseWsL (pyJoinSep ' ' results)).take n)).isEmpty = true
  · left
    rw [if_pos h]
  · right
    rw [if_neg h]
    calc (⟨pyStripL ((collapseWsL (pyJoinSep ' ' results)).take n)⟩ : String).length
        = (pyStripL ((collapseWsL (pyJoinSep ' ' results)).take n)).length := rfl
      _ ≤ ((collapseWsL (pyJoinSep ' ' results)).take n).length := pyStripL_length_le _
      _ ≤ n := by
          rw [List.length_take]
          exact min_le_left _ _

/-- Claim C3 counterexample: the tkinter variants store the OCR fragments
joined with a newline — extract_text_from_image of update.py and
extra_excel.prompt.py returns "Hello\nWorld" for fragments Hello and World —
with no whitespace collapsing (the normalized form would be "Hello World")
and no sentinel substitution (an empty OCR result is stored as ""). -/
theorem C3_counterexample_no_normalization :
    extract_text_from_image (Except.ok (["Hello", "World"])) = "Hello\nWorld"
    ∧ ((⟨collapseWsL (pyJoinSep ' ' ["Hello\nWorld"])⟩ : String) = "Hello World")
    ∧ ((("Hello\nWorld" : String) == "Hello World") = false)
    ∧ extract_text_from_image (Except.ok []) = ""
    ∧ ((("" : String) == noTextSentinel) = false) := by
  refine ⟨?_, ?_, ?_, ?_, ?_⟩ <;> decide

/-- Claim C3 amended: only the PyQt variant normalizes.  Its stored text for
a successful OCR call is either the sentinel "[No text found]" (exactly when
the joined output contains no word) or a string whose whitespace characters
are all single spaces with no two adjacent, with non-whitespace characters
at both ends, and whose non-whitespace content equals that of the joined
OCR output in order.  The tkinter variants store the newline-joined
fragments unchanged (see the counterexample). -/
theorem C3_amended_pyqt_normalizes : ∀ results : List String,
    ((words (pyJoinSep ' ' results)).isEmpty = true
      ∧ Qt.extract_text none (Except.ok results) = noTextSentinel)
    ∨ (noBadWs (Qt.extract_text none (Except.ok results)).data = true
      ∧ noDoubleSpace (Qt.extract_text none (Except.ok results)).data = true
      ∧ trimmedB (Qt.extract_text none (Except.ok results)).data = true
      ∧ (Qt.extract_text none (Except.ok results)).data.filter (fun c => !isPyWs c)
          = (pyJoinSep ' ' results).filter (fun c => !isPyWs c)) := by
  intro results
  cases hw : words (pyJoinSep ' ' results) with
  | nil =>
    left
    constructor
    · simp [hw]
    · simp [Qt.extract_text, collapseWsL, hw, unwords, pyStripL]
  | cons w ws =>
    right
    obtain ⟨hbad, hdsp, hhead, hrev, hfil, hne⟩ :=
      collapseWsL_props (pyJoinSep ' ' results) (by simp [hw])
    have hstrip : pyStripL (collapseWsL (pyJoinSep ' ' results)) =
        collapseWsL (pyJoinSep ' ' results) := pyStripL_eq_self hhead hrev
    have hempty : (pyStripL (collapseWsL (pyJoinSep ' ' results))).isEmpty = false := by
      rw [hstrip]
      simpa [List.isEmpty_iff] using hne
    have hval : Qt.extract_text none (Except.ok results) =
        ⟨collapseWsL (pyJoinSep ' ' results)⟩ := by
      simp only [Qt.extract_text]
      rw [hempty]
      simp [hstrip]
    rw [hval]
    exact ⟨hbad, hdsp, by simp [trimmedB, string_mk_data, hhead, hrev], hfil⟩

/-- Claim C1 counterexample: in the Excel variant's extracted_name policy a
file whose OCR output is empty yields no Result Record at all — a completed
run over one image file ends with zero records, contradicting the claim
that every input file yields exactly one record even when its extracted
text is empty. -/
theorem C1_counterexample_empty_text_no_record :
    ((["a.png"] : List String).filter validExt).length = 1
    ∧ (Excl.process_bulk_images ⟨"F", ["a.png"], Excl.SaveOption.extractedName,
        fun _ => Except.ok [], fun _ => true, none⟩).status = TkStatus.completed
    ∧ (Excl.process_bulk_images ⟨"F", ["a.png"], Excl.SaveOption.extractedName,
        fun _ => Except.ok [], fun _ => true, none⟩).records.length = 0 := by
  refine ⟨?_, ?_, ?_⟩ <;> decide

/-- Claim C1 amended: on an uninterrupted run, the PyQt variant produces
exactly one Result Record per input file (including error and empty-text
files), and the Excel variant does so under its single_file and
separate_files policies; under extracted_name, files whose extracted text is
empty or whitespace-only produce no record (see the counterexample). -/
theorem C1_amended_one_record_per_file :
    (∀ (fp : String) (listing : List String) (sf : Option (List String))
        (ocr : String → Except String (List String)) (limit : Option Nat) (ufp : Bool),
      (Qt.run ⟨fp, listing, sf, ocr, limit, ufp, true, none⟩).records.length =
        (Qt.selectFiles sf listing).length)
    ∧ (∀ (fp : String) (listing : List String)
        (ocr : String → Except String (List String)),
      (Excl.process_bulk_images ⟨fp, listing, Excl.SaveOption.singleFile, ocr,
          fun _ => true, none⟩).records.length = (listing.filter validExt).length)
    ∧ (∀ (fp : String) (listing : List String)
        (ocr : String → Except String (List String)),
      (Excl.process_bulk_images ⟨fp, listing, Excl.SaveOption.separateFiles, ocr,
          fun _ => true, none⟩).records.length = (listing.filter validExt).length) := by
  refine ⟨?_, ?_, ?_⟩
  · intro fp listing sf ocr limit ufp
    simp only [Qt.run]
    by_cases he : (Qt.selectFiles sf listing).isEmpty
    · rw [if_pos he]
      simp only [List.isEmpty_iff] at he
      simp [he]
    · rw [if_neg he]
      simp only [Bool.not_true, Bool.false_eq_true, if_false]
      rw [qt_loop_records_length]
      simp [stepsBeforeCancel]
  · intro fp listing ocr
    simp only [Excl.process_bulk_images]
    by_cases he : (listing.filter validExt).isEmpty
    · rw [if_pos he]
      simp only [List.isEmpty_iff] at he
      simp [he]
    · rw [if_neg he]
      obtain ⟨h1, h2⟩ := excl_loop_count
        ⟨fp, listing, Excl.SaveOption.singleFile, ocr, fun _ => true, none⟩
        (pathJoin fp extractedTextsDirName) (Or.inl rfl) rfl (fun p => rfl)
        (listing.filter validExt) 0
        ⟨fp, [], [pathJoin fp extractedTextsDirName], [], [], []⟩
      simpa using h2
  · intro fp listing ocr
    simp only [Excl.process_bulk_images]
    by_cases he : (listing.filter validExt).isEmpty
    · rw [if_pos he]
      simp only [List.isEmpty_iff] at he
      simp [he]
    · rw [if_neg he]
      obtain ⟨h1, h2⟩ := excl_loop_count
        ⟨fp, listing, Excl.SaveOption.separateFiles, ocr, fun _ => true, none⟩
        (pathJoin fp extractedTextsDirName) (Or.inr rfl) rfl (fun p => rfl)
        (listing.filter validExt) 0
        ⟨fp, [], [pathJoin fp extractedTextsDirName], [], [], []⟩
      simpa using h2

/-- Claim C2 counterexample: the bulk loop of extra_button.py performs no
cancellation check at all — with a cancellation request arriving before any
file is processed, a run over two images still reads and processes both
files and writes both per-file text outputs, contradicting the claim that
the loop stops at the boundary with the remaining files untouched. -/
theorem C2_counterexample_button_ignores_cancel :
    (Btn.process_bulk_images ⟨"F", ["a.png", "b.png"], false,
        fun _ => Except.ok (["x"]), some 0⟩).txtFiles.length = 2
    ∧ (Btn.process_bulk_images ⟨"F", ["a.png", "b.png"], false,
        fun _ => Except.ok (["x"]), some 0⟩).ocrCalls = ["F/a.png", "F/b.png"]
    ∧ (Btn.process_bulk_images ⟨"F", ["a.png", "b.png"], false,
        fun _ => Except.ok (["x"]), some 0⟩).status = TkStatus.completed := by
  refine ⟨?_, ?_, ?_⟩ <;> decide

/-- Claim C2 amended: in update.py the flag is checked before each file
step — a flag set after k of n files leaves exactly k entries, passes
exactly the first k paths to the OCR engine and ends in the Cancelled
terminal (Completed when k is at least n); the PyQt worker likewise stops at
the boundary with exactly min k n records (though it then proceeds to its
ordinary completion signal); extra_button.py's loop has no check and always
processes every file. -/
theorem C2_amended_flag_checked_where_present :
    (∀ (fp : String) (listing : List String)
        (ocr : String → Except String (List String)) (k : Nat),
      ((Upd.process_bulk_images ⟨fp, listing, ocr, fun _ => true, some k⟩).status =
          if (listing.filter validExt).isEmpty then TkStatus.noImages
          else if k < (listing.filter validExt).length then TkStatus.cancelled
          else TkStatus.completed)
      ∧ (Upd.process_bulk_images ⟨fp, listing, ocr, fun _ => true, some k⟩).entries.length =
          min k (listing.filter validExt).length
      ∧ (Upd.process_bulk_images ⟨fp, listing, ocr, fun _ => true, some k⟩).ocrCalls =
          ((listing.filter validExt).take k).map (fun f => pathJoin fp f))
    ∧ (∀ (fp : String) (listing : List String) (sf : Option (List String))
        (ocr : String → Except String (List String)) (limit : Option Nat)
        (ufp : Bool) (k : Nat),
      (Qt.run ⟨fp, listing, sf, ocr, limit, ufp, true, some k⟩).records.length =
        min k (Qt.selectFiles sf listing).length)
    ∧ (∀ (fp : String) (listing : List String) (pdfFlag : Bool)
        (ocr : String → Except String (List String)) (ca : Option Nat),
      (Btn.process_bulk_images ⟨fp, listing, pdfFlag, ocr, ca⟩).txtFiles.length =
        (listing.filter validExt).length) := by
  refine ⟨?_, ?_, ?_⟩
  · intro fp listing ocr k
    simp only [Upd.process_bulk_images]
    by_cases he : (listing.filter validExt).isEmpty
    · rw [if_pos he]
      simp only [List.isEmpty_iff] at he
      simp [he]
    · rw [if_neg he]
      obtain ⟨h1, h2, h3⟩ := upd_loop_characterize fp listing ocr k
        (listing.filter validExt) 0 ⟨[], [], []⟩
      have hkz : k - 0 = k := Nat.sub_zero k
      have htake : (listing.filter validExt).take (min k (listing.filter validExt).length) =
          (listing.filter validExt).take k := by
        by_cases hkn : k ≤ (listing.filter validExt).length
        · rw [min_eq_left hkn]
        · rw [min_eq_right (by omega)]
          rw [List.take_length, List.take_of_length_le (by omega)]
      refine ⟨?_, ?_, ?_⟩
      · rw [h1, hkz, if_neg he]
        by_cases hkn : k < (listing.filter validExt).length
        · rw [if_neg (show ¬((listing.filter validExt).length ≤ k) by omega), if_pos hkn]
        · rw [if_pos (show (listing.filter validExt).length ≤ k by omega), if_neg hkn]
      · rw [h2]
        simp only [hkz, htake, List.nil_append, List.length_map, List.length_take]
      · rw [h3]
        simp only [hkz, htake, List.nil_append]
  · intro fp listing sf ocr limit ufp k
    simp only [Qt.run]
    by_cases he : (Qt.selectFiles sf listing).isEmpty
    · rw [if_pos he]
      simp only [List.isEmpty_iff] at he
      simp [he]
    · rw [if_neg he]
      simp only [Bool.not_true, Bool.false_eq_true, if_false]
      rw [qt_loop_records_length]
      simp only [stepsBeforeCancel, List.length_nil, Nat.zero_add, Nat.sub_zero]
  · intro fp listing pdfFlag ocr ca
    simp only [Btn.process_bulk_images]
    by_cases he : (listing.filter validExt).isEmpty
    · rw [if_pos he]
      simp only [List.isEmpty_iff] at he
      simp [he]
    · rw [if_neg he]
      obtain ⟨h1, h2⟩ := btn_loop_lengths ⟨fp, listing, pdfFlag, ocr, ca⟩
        (listing.filter validExt) 0 ⟨[], [], [], []⟩
      simpa using h1

theorem match_excel_isSome (s : TkStatus) (x : String × List Excl.ExcelRecord) :
    (match s with
      | TkStatus.completed => some x
      | _ => none).isSome = (s == TkStatus.completed) := by
  cases s <;> rfl

/-- Claim C4 counterexample: in the Excel variant a cancellation after 1 of
2 files leaves one Result Record but the aggregate spreadsheet is never
written; and in update.py the aggregate text file is opened (created)
before the loop, so an immediately cancelled run that processed zero files
still produced the aggregate artifact.  Both contradict the claim. -/
theorem C4_counterexample_cancel_aggregate :
    (Excl.process_bulk_images ⟨"F", ["a.png", "b.png"], Excl.SaveOption.singleFile,
        fun _ => Except.ok (["x"]), fun _ => true, some 1⟩).records.length = 1
    ∧ (Excl.process_bulk_images ⟨"F", ["a.png", "b.png"], Excl.SaveOption.singleFile,
        fun _ => Except.ok (["x"]), fun _ => true, some 1⟩).status = TkStatus.cancelled
    ∧ (Excl.process_bulk_images ⟨"F", ["a.png", "b.png"], Excl.SaveOption.singleFile,
        fun _ => Except.ok (["x"]), fun _ => true, some 1⟩).excelOut = none
    ∧ (Upd.process_bulk_images ⟨"F", ["a.png"],
        fun _ => Except.ok (["x"]), fun _ => true, some 0⟩).status = TkStatus.cancelled
    ∧ (Upd.process_bulk_images ⟨"F", ["a.png"],
        fun _ => Except.ok (["x"]), fun _ => true, some 0⟩).entries = []
    ∧ (Upd.process_bulk_images ⟨"F", ["a.png"],
        fun _ => Except.ok (["x"]), fun _ => true, some 0⟩).aggregatePath =
      some ("F/extracted_texts.txt") := by
  refine ⟨?_, ?_, ?_, ?_, ?_, ?_⟩ <;> decide

/-- Claim C4 amended: the PyQt worker writes the aggregate spreadsheet
exactly when records exist at the point the loop stopped (completion or
interruption); the Excel variant writes it exactly when the loop ran to
completion — never on cancellation, however many records exist; update.py
creates its aggregate text file as soon as the job passes the no-images
check, so it exists even when cancellation strikes before any file. -/
theorem C4_amended_aggregate_policies :
    (∀ inp : Qt.Input,
      (Qt.run inp).excelOut.isSome = !(Qt.run inp).records.isEmpty)
    ∧ (∀ inp : Excl.Input,
      (Excl.process_bulk_images inp).excelOut.isSome =
        ((Excl.process_bulk_images inp).status == TkStatus.completed))
    ∧ (∀ inp : Upd.Input,
      (Upd.process_bulk_images inp).aggregatePath.isSome =
        !(inp.listing.filter validExt).isEmpty) := by
  refine ⟨?_, ?_, ?_⟩
  · intro inp
    simp only [Qt.run]
    split
    · rfl
    · split
      · rfl
      · split
        · next h => simp [h]
        · next h => simp [h]
  · intro inp
    simp only [Excl.process_bulk_images]
    split
    · rfl
    · exact match_excel_isSome _ _
  · intro inp
    simp only [Upd.process_bulk_images]
    split
    · next h => simp [h]
    · next h => simp [h]

/-- Claim C9 counterexample: update.py resets the displayed processed count
to 0 when cancellation strikes — a run over five files cancelled after two
emits the progress values 1, 2, 0, which is not monotonically
non-decreasing. -/
theorem C9_counterexample_progress_reset :
    (Upd.process_bulk_images ⟨"F", ["a.png", "b.png", "c.png", "d.png", "e.png"],
        fun _ => Except.ok (["x"]), fun _ => true, some 2⟩).progressValues = [1, 2, 0]
    ∧ nondecr [1, 2, 0] = false := by
  refine ⟨?_, ?_⟩ <;> decide

/-- Claim C9 amended: in the PyQt variant the progress pairs emitted by a
run are monotone — the processed component never decreases, never exceeds
the total component, and the total component is fixed at the selected file
count for the whole run; the tkinter variants reset the displayed count to
0 on cancellation (see the counterexample). -/
theorem C9_amended_progress_monotone_pyqt : ∀ inp : Qt.Input,
    nondecr ((Qt.run inp).progress.map Prod.fst) = true
    ∧ ((Qt.run inp).progress.all fun p => decide (p.1 ≤ p.2)) = true
    ∧ ((Qt.run inp).progress.all fun p =>
        p.2 == (Qt.selectFiles inp.specificFiles inp.listing).length) = true := by
  intro inp
  simp only [Qt.run]
  split
  · exact ⟨rfl, rfl, rfl⟩
  · split
    · exact ⟨rfl, rfl, rfl⟩
    · rw [qt_loop_progress]
      have hmn : stepsBeforeCancel inp.cancelAfter 0
          (Qt.selectFiles inp.specificFiles inp.listing).length ≤
          (Qt.selectFiles inp.specificFiles inp.listing).length := by
        cases hca : inp.cancelAfter <;> simp [stepsBeforeCancel]
      refine ⟨?_, ?_, ?_⟩
      · rw [List.nil_append, List.map_map]
        have hfun : ((fun p : Nat × Nat => p.1) ∘
            (fun j => (0 + j + 1, (Qt.selectFiles inp.specificFiles inp.listing).length))) =
            fun j => j + 1 := by
          funext j
          simp
        rw [hfun]
        exact nondecr_range_succ _
      · rw [List.nil_append]
        apply List.all_eq_true.mpr
        intro p hp
        obtain ⟨j, hj, rfl⟩ := List.mem_map.mp hp
        simp only [List.mem_range] at hj
        simp only [decide_eq_true_eq]
        omega
      · rw [List.nil_append]
        apply List.all_eq_true.mpr
        intro p hp
        obtain ⟨j, hj, rfl⟩ := List.mem_map.mp hp
        simp

/-- Claim C7: in all four variants, when the folder listing contains no
entry with a recognized image extension, the run fails with the no-images
condition and performs no filesystem writes: no directory is created, no
per-file text file is written, no record exists and no aggregate artifact
(spreadsheet, text file or PDF) is produced. -/
theorem C7_empty_filter_no_writes (fp : String) (listing : List String)
    (ocr : String → Except String (List String)) (limit : Option Nat)
    (ufp ro : Bool) (ca : Option Nat) (so : Excl.SaveOption) (pdfFlag : Bool)
    (imgOk : String → Bool)
    (h : listing.filter validExt = []) :
    ((Qt.run ⟨fp, listing, none, ocr, limit, ufp, ro, ca⟩).status = Qt.Status.noImages
      ∧ (Qt.run ⟨fp, listing, none, ocr, limit, ufp, ro, ca⟩).dirs = []
      ∧ (Qt.run ⟨fp, listing, none, ocr, limit, ufp, ro, ca⟩).textFiles = []
      ∧ (Qt.run ⟨fp, listing, none, ocr, limit, ufp, ro, ca⟩).records = []
      ∧ (Qt.run ⟨fp, listing, none, ocr, limit, ufp, ro, ca⟩).excelOut = none)
    ∧ ((Excl.process_bulk_images ⟨fp, listing, so, ocr, imgOk, ca⟩).status = TkStatus.noImages
      ∧ (Excl.process_bulk_images ⟨fp, listing, so, ocr, imgOk, ca⟩).dirs = []
      ∧ (Excl.process_bulk_images ⟨fp, listing, so, ocr, imgOk, ca⟩).txtFiles = []
      ∧ (Excl.process_bulk_images ⟨fp, listing, so, ocr, imgOk, ca⟩).excelOut = none)
    ∧ ((Upd.process_bulk_images ⟨fp, listing, ocr, imgOk, ca⟩).status = TkStatus.noImages
      ∧ (Upd.process_bulk_images ⟨fp, listing, ocr, imgOk, ca⟩).aggregatePath = none
      ∧ (Upd.process_bulk_images ⟨fp, listing, ocr, imgOk, ca⟩).entries = [])
    ∧ ((Btn.process_bulk_images ⟨fp, listing, pdfFlag, ocr, ca⟩).status = TkStatus.noImages
      ∧ (Btn.process_bulk_images ⟨fp, listing, pdfFlag, ocr, ca⟩).txtFiles = []
      ∧ (Btn.process_bulk_images ⟨fp, listing, pdfFlag, ocr, ca⟩).pdfOut = none) := by
  have he : (listing.filter validExt).isEmpty = true := by simp [h]
  have hq : (Qt.selectFiles none listing).isEmpty = true := he
  refine ⟨⟨?_, ?_, ?_, ?_, ?_⟩, ⟨?_, ?_, ?_, ?_⟩, ⟨?_, ?_, ?_⟩, ⟨?_, ?_, ?_⟩⟩ <;>
    simp [Qt.run, Excl.process_bulk_images, Upd.process_bulk_images,
      Btn.process_bulk_images, Qt.selectFiles, he, hq]

/-- Witness for C7: a folder whose listing holds a text file and a file with
a trailing non-image extension; the filter keeps nothing and all four runs
fail with no-images having written nothing. -/
theorem C7_empty_filter_no_writes_witness :
    ((["notes.txt", "image.png.bak"] : List String).filter validExt = [])
    ∧ (((Qt.run ⟨"F", ["notes.txt", "image.png.bak"], none, fun _ => Except.ok [],
          none, true, true, none⟩).status = Qt.Status.noImages
      ∧ (Qt.run ⟨"F", ["notes.txt", "image.png.bak"], none, fun _ => Except.ok [],
          none, true, true, none⟩).dirs = []
      ∧ (Qt.run ⟨"F", ["notes.txt", "image.png.bak"], none, fun _ => Except.ok [],
          none, true, true, none⟩).textFiles = []
      ∧ (Qt.run ⟨"F", ["notes.txt", "image.png.bak"], none, fun _ => Except.ok [],
          none, true, true, none⟩).records = []
      ∧ (Qt.run ⟨"F", ["notes.txt", "image.png.bak"], none, fun _ => Except.ok [],
          none, true, true, none⟩).excelOut = none)
    ∧ ((Excl.process_bulk_images ⟨"F", ["notes.txt", "image.png.bak"],
          Excl.SaveOption.singleFile, fun _ => Except.ok [], fun _ => true, none⟩).status = TkStatus.noImages
      ∧ (Excl.process_bulk_images ⟨"F", ["notes.txt", "image.png.bak"],
          Excl.SaveOption.singleFile, fun _ => Except.ok [], fun _ => true, none⟩).dirs = []
      ∧ (Excl.process_bulk_images ⟨"F", ["notes.txt", "image.png.bak"],
          Excl.SaveOption.singleFile, fun _ => Except.ok [], fun _ => true, none⟩).txtFiles = []
      ∧ (Excl.process_bulk_images ⟨"F", ["notes.txt", "image.png.bak"],
          Excl.SaveOption.singleFile, fun _ => Except.ok [], fun _ => true, none⟩).excelOut = none)
    ∧ ((Upd.process_bulk_images ⟨"F", ["notes.txt", "image.png.bak"],
          fun _ => Except.ok [], fun _ => true, none⟩).status = TkStatus.noImages
      ∧ (Upd.process_bulk_images ⟨"F", ["notes.txt", "image.png.bak"],
          fun _ => Except.ok [], fun _ => true, none⟩).aggregatePath = none
      ∧ (Upd.process_bulk_images ⟨"F", ["notes.txt", "image.png.bak"],
          fun _ => Except.ok [], fun _ => true, none⟩).entries = [])
    ∧ ((Btn.process_bulk_images ⟨"F", ["notes.txt", "image.png.bak"], false,
          fun _ => Except.ok [], none⟩).status = TkStatus.noImages
      ∧ (Btn.process_bulk_images ⟨"F", ["notes.txt", "image.png.bak"], false,
          fun _ => Except.ok [], none⟩).txtFiles = []
      ∧ (Btn.process_bulk_images ⟨"F", ["notes.txt", "image.png.bak"], false,
          fun _ => Except.ok [], none⟩).pdfOut = none)) :=
  ⟨by decide,
    C7_empty_filter_no_writes ("F") ["notes.txt", "image.png.bak"]
      (fun _ => Except.ok []) none true true none Excl.SaveOption.singleFile false
      (fun _ => true) (by decide)⟩
